import Mathlib

/-!
Shallow embedding of the portfolio generator's merge/normalization core
(`src/update_config.py`, `src/generate_index.py`, `src/yaml_parser.py`).

Python values loaded from YAML are modelled by the inductive `Val`;
Python dicts by insertion-ordered association lists with string keys
(YAML mapping keys in this configuration are strings).  Python dict
update semantics (replace in place, append new keys at the end) and
Python truthiness are modelled explicitly.
-/

/-- A Python value as produced by `yaml.safe_load` and manipulated by the
scripts: `None`, `bool`, `int`, `str`, `list`, `dict`. -/
inductive Val where
  | null : Val
  | bool (b : Bool) : Val
  | int (n : Int) : Val
  | str (s : String) : Val
  | list (xs : List Val) : Val
  | dict (xs : List (String × Val)) : Val
deriving Repr

/-- A Python dict with string keys, insertion ordered. -/
abbrev Dict := List (String × Val)

/-- Python `d.get(k)`: the value bound to `k`, `None`-as-`Option.none` when
absent.  Keys are unique in a genuine Python dict; we return the first
binding. -/
def dictGet : Dict → String → Option Val
  | [], _ => none
  | (k', v) :: rest, k => if k' == k then some v else dictGet rest k

/-- Python `d[k] = v`: replace the value in place when `k` is present
(keeping its position), append `(k, v)` otherwise. -/
def dictSet (d : Dict) (k : String) (v : Val) : Dict :=
  match d with
  | [] => [(k, v)]
  | (k', v') :: rest =>
    if k == k' then (k, v) :: rest else (k', v') :: dictSet rest k v

/-- Python `d.update(kvs)`: `d[k] = v` for each pair in order. -/
def dictUpdate (d : Dict) (kvs : List (String × Val)) : Dict :=
  kvs.foldl (fun acc kv => dictSet acc kv.1 kv.2) d

/-- Python truthiness of a `Val`: `None`, `False`, `0`, `''`, `[]`, `{}`
are falsy, everything else truthy. -/
def truthy : Val → Bool
  | .null => false
  | .bool b => b
  | .int n => n != 0
  | .str s => s != ""
  | .list xs => !xs.isEmpty
  | .dict xvs => !xvs.isEmpty

/-- A fetched repository record, the attributes of the PyGithub `repo`
object that the scripts read.  `description`, `language` and `updated_at`
may be `None` on the Python side, hence `Option`; `updated_at` carries
the `isoformat()` string of the timestamp when present. -/
structure Repo where
  name : String
  description : Option String
  html_url : String
  language : Option String
  stargazers_count : Nat
  forks_count : Nat
  topics : List String
  fork : Bool
  updated_at : Option String
deriving Repr

/-- Python `s.lower()`, modelled for the ASCII range (every string the
scripts lower-case and compare against keywords is ASCII). -/
def pyLower (s : String) : String :=
  String.mk (s.data.map Char.toLower)

/-- Python `s.upper()`, modelled for the ASCII range. -/
def pyUpper (s : String) : String :=
  String.mk (s.data.map Char.toUpper)

/-- Whether `xs` occurs at the start of `ys`. -/
def leadsList : List Char → List Char → Bool
  | [], _ => true
  | _ :: _, [] => false
  | a :: as, b :: bs => a == b && leadsList as bs

/-- Whether `xs` occurs contiguously somewhere in `ys`. -/
def occursIn (xs : List Char) : List Char → Bool
  | [] => xs.isEmpty
  | c :: cs => leadsList xs (c :: cs) || occursIn xs cs

/-- Python `kw in s`: substring containment. -/
def strIn (kw s : String) : Bool :=
  occursIn kw.toList s.toList

/-- `training_keywords` from `get_auto_classification` (both scripts hold
an identical copy). -/
def training_keywords : List String :=
  ["tutorial", "course", "learning", "practice", "exercise",
   "training", "workshop", "lesson", "bootcamp", "skill",
   "learn", "study", "example", "sample", "demo"]

/-- `get_auto_classification(repo)` (identical in `update_config.py` and
`generate_index.py`): keyword substring match on the lower-cased name,
then the lower-cased description, then each lower-cased topic, then the
fork-with-0-stars-and-empty-description rule; else `'project'`. -/
def get_auto_classification (repo : Repo) : String :=
  let name := pyLower repo.name
  let description := pyLower (repo.description.getD "")
  let topics := repo.topics
  if training_keywords.any (fun kw => strIn kw name) then "training"
  else if training_keywords.any (fun kw => strIn kw description) then "training"
  else if topics.any (fun t => training_keywords.any (fun kw => strIn kw (pyLower t))) then "training"
  else if repo.fork && repo.stargazers_count == 0 && description == "" then "training"
  else "project"

/-- The `animals` emoji palette (identical in both scripts); 86 entries. -/
def animals : List String :=
  ["🦁", "🐯", "🐻", "🐼", "🐨", "🐵", "🐶", "🐺", "🦊", "🦝",
   "🐱", "🦁", "🐴", "🦄", "🦓", "🦌", "🐮", "🐷", "🐗", "🐭",
   "🐹", "🐰", "🐇", "🐿️", "🦔", "🦇", "🐻‍❄️", "🐨", "🐼", "🦥",
   "🦦", "🦨", "🦘", "🦡", "🐾", "🦃", "🐔", "🐓", "🐣", "🐤",
   "🐥", "🐦", "🐧", "🕊️", "🦅", "🦆", "🦢", "🦉", "🦤", "🪶",
   "🦩", "🦚", "🦜", "🐸", "🐊", "🐢", "🦎", "🐍", "🐲", "🐉",
   "🦕", "🦖", "🐳", "🐋", "🐬", "🦭", "🐟", "🐠", "🐡", "🦈",
   "🐙", "🐚", "🪸", "🐌", "🦋", "🐛", "🐝", "🪲", "🐞", "🦗",
   "🕷️", "🦂", "🦟", "🪰", "🪱", "🦠"]

/-- The rolling hash of `get_animal_for_project`: per character
`h = ((h << 5) - h) + ord(ch)` then `h = h & 0xFFFFFFFF`.  `h` stays
below `2^32`, so `(h <<< 5) - h = 31 * h` never underflows. -/
def animalHash (cs : List Char) : Nat :=
  cs.foldl (fun h ch => (((h <<< 5) - h) + ch.toNat) % 4294967296) 0

/-- `get_animal_for_project(project_name)`: `animals[abs(h) % len(animals)]`
(`h` is non-negative, so `abs` is the identity; the index is in range,
so `getD` equals Python's indexing). -/
def get_animal_for_project (project_name : String) : String :=
  let h := animalHash project_name.toList
  animals.getD (h % animals.length) ""

/-- `getattr(repo, 'language', 'Unknown') or 'Unknown'`: `None` and the
empty string both fall back to `'Unknown'`. -/
def languageOf (repo : Repo) : String :=
  match repo.language with
  | some s => if s == "" then "Unknown" else s
  | none => "Unknown"

/-- The dict of freshly fetched standard metadata written by both merge
loops (the dict literal of `update_config.py` and the argument of
`proj.update(...)` in `generate_index.py`), parametrised by the already
computed `classification` and `image` values.  `repo.description or ''`
coalesces `None` to `''`; `stars or 0` and `topics or []` are identities
on ints and lists; `updated_at` is the `isoformat()` string when the
timestamp is present, `''` otherwise. -/
def repoFields (repo : Repo) (classification image : Val) : List (String × Val) :=
  [("name", Val.str repo.name),
   ("description", Val.str (repo.description.getD "")),
   ("url", Val.str repo.html_url),
   ("classification", classification),
   ("image", image),
   ("language", Val.str (languageOf repo)),
   ("stars", Val.int (Int.ofNat repo.stargazers_count)),
   ("forks", Val.int (Int.ofNat repo.forks_count)),
   ("topics", Val.list (repo.topics.map Val.str)),
   ("updated_at", Val.str (repo.updated_at.getD ""))]

/-- Python `==` between dict keys of `existing_map`
(`{p.get('name'): p for p in ...}`).  YAML scalars compare by value,
with the `bool`/`int` crossover (`True == 1`); lists and dicts are
unhashable in Python (the comprehension would raise `TypeError`), so
they never actually occur as keys. -/
def keyEq : Val → Val → Bool
  | .null, .null => true
  | .str a, .str b => a == b
  | .int a, .int b => a == b
  | .bool a, .bool b => a == b
  | .bool a, .int n => (if a then (1 : Int) else 0) == n
  | .int n, .bool b => n == (if b then (1 : Int) else 0)
  | _, _ => false

/-- Assignment into `existing_map` (a Python dict keyed by `Val`):
replace in place keeping the original key, append otherwise. -/
def emapSet (m : List (Val × Dict)) (k : Val) (v : Dict) : List (Val × Dict) :=
  match m with
  | [] => [(k, v)]
  | (k', v') :: rest =>
    if keyEq k k' then (k', v) :: rest else (k', v') :: emapSet rest k v

/-- `existing_map = {p.get('name'): p for p in existing.get('projects', [])}`:
a dict comprehension, so duplicate names resolve last-write-wins. -/
def existingMap (projects : List Dict) : List (Val × Dict) :=
  projects.foldl (fun m p => emapSet m ((dictGet p "name").getD Val.null) p) []

/-- `existing_map.get(k)`. -/
def emapGet (m : List (Val × Dict)) (k : Val) : Option Dict :=
  (m.find? (fun p => keyEq p.1 k)).map (fun p => p.2)

/-- `classification = existing_proj.get('classification') or
get_auto_classification(repo)` from `generate_index.py`: a truthy prior
value is kept, a falsy (`None`, `''`, ...) or absent one is recomputed. -/
def gi_classification (existing_proj : Dict) (repo : Repo) : Val :=
  match dictGet existing_proj "classification" with
  | some v => if truthy v then v else Val.str (get_auto_classification repo)
  | none => Val.str (get_auto_classification repo)

/-- `image = existing_proj.get('image') or get_animal_for_project(repo.name)`
from `generate_index.py`. -/
def gi_image (existing_proj : Dict) (repo : Repo) : Val :=
  match dictGet existing_proj "image" with
  | some v => if truthy v then v else Val.str (get_animal_for_project repo.name)
  | none => Val.str (get_animal_for_project repo.name)

/-- The body of the merge loop of `generate_index.py` for one fetched
repo: look up the prior record (`existing_map.get(repo.name, {}) or {}`;
`or {}` is the identity on dict values), keep a truthy prior
classification/image and otherwise compute them, then start from a copy
of the prior dict and overwrite the standard metadata fields. -/
def gi_merge_one (emap : List (Val × Dict)) (repo : Repo) : Dict :=
  let existing_proj := (emapGet emap (Val.str repo.name)).getD []
  dictUpdate existing_proj
    (repoFields repo (gi_classification existing_proj repo)
      (gi_image existing_proj repo))

/-- `classification = existing_proj.get('classification') if existing_proj
else get_auto_classification(repo)` from `update_config.py`: a present
prior record that is a non-empty dict contributes its classification
verbatim — Python `None` (`Val.null`) when the key is absent — and
`get_auto_classification` runs only when the lookup produced `None` or
an empty dict. -/
def uc_classification (existing_proj : Option Dict) (repo : Repo) : Val :=
  match existing_proj with
  | some ep =>
    if ep.isEmpty then Val.str (get_auto_classification repo)
    else (dictGet ep "classification").getD Val.null
  | none => Val.str (get_auto_classification repo)

/-- The body of the merge loop of `update_config.py` for one fetched
repo: a fresh dict is built from the fetched metadata, and its `image`
is always `get_animal_for_project(repo.name)`. -/
def uc_merge_one (emap : List (Val × Dict)) (repo : Repo) : Dict :=
  let existing_proj := emapGet emap (Val.str repo.name)
  repoFields repo (uc_classification existing_proj repo)
    (Val.str (get_animal_for_project repo.name))

/-- The sort key `lambda x: x.get('updated_at') or ''` of both scripts.
Both merge loops always store a string under `'updated_at'`, so the
non-string catch-all (where Python would be comparing mixed types)
is unreachable on merge output. -/
def sortKeyOf (d : Dict) : String :=
  match dictGet d "updated_at" with
  | some (Val.str s) => s
  | _ => ""

/-- Python `<=` on strings restricted to their character lists:
lexicographic by Unicode code point. -/
def strLeB : List Char → List Char → Bool
  | [], _ => true
  | _ :: _, [] => false
  | a :: as, b :: bs => decide (a < b) || (a == b && strLeB as bs)

/-- The ordering relation of `list.sort(key=..., reverse=True)`:
`d` may precede `e` iff the key of `e` is at most the key of `d`.
Stable sorting with this total preorder is exactly Python's stable
descending sort. -/
def descRel (d e : Dict) : Prop :=
  strLeB (sortKeyOf e).data (sortKeyOf d).data = true

instance : DecidableRel descRel := fun d e => by
  unfold descRel; infer_instance

/-- `new_projects.sort(key=lambda x: x.get('updated_at') or '',
reverse=True)`: modelled by a stable sort (Python's Timsort is specified
stable; any stable sort of a total preorder yields the same list). -/
def pySortDesc (l : List Dict) : List Dict :=
  l.insertionSort descRel

/-- The merge of `generate_index.py` (lines 143-175): index the prior
projects by name, merge each fetched repo, sort by `updated_at`
descending. -/
def generate_index_merge (fetched : List Repo) (prior : List Dict) : List Dict :=
  let emap := existingMap prior
  pySortDesc (fetched.map (gi_merge_one emap))

/-- The merge of `update_config.py` (lines 142-168). -/
def update_config_merge (fetched : List Repo) (prior : List Dict) : List Dict :=
  let emap := existingMap prior
  pySortDesc (fetched.map (uc_merge_one emap))

/-- Normalization of one item of the `projects` list in
`parse_projects_yaml` (`yaml_parser.py` lines 27-40).  `p.get(...)`
defaults apply only when the key is absent: a present field of the wrong
type is passed through unchanged; `name` has no default (Python `None`);
`topics` additionally coalesces a falsy present value to `[]`.  Calling
`.get` on a non-dict item raises `AttributeError`, modelled by
`Except.error`. -/
def normalizeFields (d : Dict) : Dict :=
  [("name", (dictGet d "name").getD Val.null),
   ("description", (dictGet d "description").getD (Val.str "")),
   ("url", (dictGet d "url").getD (Val.str "")),
   ("classification", (dictGet d "classification").getD (Val.str "")),
   ("image", (dictGet d "image").getD (Val.str "")),
   ("language", (dictGet d "language").getD (Val.str "")),
   ("stars", (dictGet d "stars").getD (Val.int 0)),
   ("forks", (dictGet d "forks").getD (Val.int 0)),
   ("topics",
     let t := (dictGet d "topics").getD (Val.list [])
     if truthy t then t else Val.list []),
   ("updated_at", (dictGet d "updated_at").getD (Val.str ""))]

def normalizeItem (p : Val) : Except String Dict :=
  match p with
  | Val.dict d => .ok (normalizeFields d)
  | _ => .error "AttributeError"

/-- Sequence `normalizeItem` over the `projects` list (the `for p in
projects` loop appending to `normalized`). -/
def normalizeItems : List Val → Except String (List Dict)
  | [] => .ok []
  | p :: ps => do
    let d ← normalizeItem p
    let ds ← normalizeItems ps
    pure (d :: ds)

/-- `parse_projects_yaml(yaml_text)` (`yaml_parser.py` lines 10-42).
The external `yaml.safe_load` is abstracted as the already-parsed input:
`Except.error` for unparsable text, `Except.ok v` for a successful parse
(`Val.null` for an empty document).  `safe_load(...) or {}` coalesces a
falsy parse to `{}`; a non-dict top level or a non-list `projects` value
yields `[]`. -/
def parse_projects_yaml (input : Except Unit Val) : Except String (List Dict) :=
  match input with
  | .error _ => .ok []
  | .ok v =>
    let data := if truthy v then v else Val.dict []
    let projects : Val :=
      match data with
      | Val.dict d => (dictGet d "projects").getD Val.null
      | _ => Val.list []
    match projects with
    | Val.list ps => normalizeItems ps
    | _ => .ok []

/-- `_slug(name)` from `generate_index.py`: every non-alphanumeric
character becomes `'-'`, then the result is lower-cased (`isalnum` and
`lower` modelled on the ASCII range the names use). -/
def gi_slug (name : String) : String :=
  pyLower (String.mk (name.data.map (fun c => if c.isAlphanum then c else '-')))

/-- The rolling hash of `_color_from_name`: per character
`h = (h * 31 + ord(ch)) & 0xFFFFFFFF`. -/
def colorHash (cs : List Char) : Nat :=
  cs.foldl (fun h ch => (h * 31 + ch.toNat) % 4294967296) 0

/-- `_color_from_name(name)`: hue `h % 360` formatted as
`hsl(hue 80% 50%)`. -/
def gi_color_from_name (name : String) : String :=
  let hue := colorHash name.data % 360
  "hsl(" ++ toString hue ++ " 80% 50%)"

/-- Python `name.replace('-', ' ').split()`: split on whitespace runs,
dropping empty parts, after replacing hyphens with spaces. -/
def splitParts (name : String) : List (List Char) :=
  ((name.data.map (fun c => if c == '-' then ' ' else c)).splitOnP
      (fun c => c.isWhitespace)).filter (fun p => !p.isEmpty)

/-- `_initials(name, limit=2)` from `generate_index.py` (every call site
uses the default `limit` of 2): no parts → the first `limit` characters
of the raw name upper-cased; one part → its first `limit` characters
upper-cased; otherwise the first character of each of the first `limit`
parts, upper-cased. -/
def gi_initials (name : String) (limit : Nat) : String :=
  let parts := splitParts name
  match parts with
  | [] => pyUpper (String.mk (name.data.take limit))
  | [p] => pyUpper (String.mk (p.take limit))
  | _ => pyUpper (String.mk ((parts.take limit).map (fun p => p.headD ' ')))

/-- The ten keys overwritten with fetched metadata by both merge loops. -/
def standardFields : List String :=
  ["name", "description", "url", "classification", "image", "language",
   "stars", "forks", "topics", "updated_at"]

theorem dictGet_dictSet (d : Dict) (k k' : String) (v : Val) :
    dictGet (dictSet d k v) k' = if k == k' then some v else dictGet d k' := by
  induction d with
  | nil => simp [dictSet, dictGet]
  | cons hd tl ih =>
    obtain ⟨k₀, v₀⟩ := hd
    by_cases h0 : k = k₀
    · subst h0
      by_cases h : k = k' <;> simp [dictSet, dictGet, h]
    · by_cases h1 : k₀ = k'
      · subst h1
        have h2 : k ≠ k₀ := h0
        simp [dictSet, dictGet, beq_eq_false_iff_ne.mpr h0, h2]
      · simp [dictSet, dictGet, beq_eq_false_iff_ne.mpr h0,
          beq_eq_false_iff_ne.mpr h1, ih]

theorem dictGet_dictUpdate_of_not_mem (d : Dict) (kvs : List (String × Val))
    (k : String) (hk : ∀ kv ∈ kvs, kv.1 ≠ k) :
    dictGet (dictUpdate d kvs) k = dictGet d k := by
  induction kvs generalizing d with
  | nil => rfl
  | cons kv rest ih =>
    have h1 : kv.1 ≠ k := hk kv (List.mem_cons_self kv rest)
    have h2 : ∀ kv' ∈ rest, kv'.1 ≠ k := fun kv' h => hk kv' (List.mem_cons_of_mem kv h)
    simp only [dictUpdate, List.foldl_cons] at ih ⊢
    rw [ih _ h2, dictGet_dictSet]
    simp [h1]

theorem strLeB_refl (xs : List Char) : strLeB xs xs = true := by
  induction xs with
  | nil => rfl
  | cons a as ih => simp [strLeB, ih]

theorem strLeB_total (xs ys : List Char) :
    strLeB xs ys = true ∨ strLeB ys xs = true := by
  induction xs generalizing ys with
  | nil => left; rfl
  | cons a as ih =>
    cases ys with
    | nil => right; rfl
    | cons b bs =>
      rcases lt_trichotomy a b with h | h | h
      · left; simp [strLeB, h]
      · subst h
        rcases ih bs with h' | h'
        · left; simp [strLeB, h']
        · right; simp [strLeB, h']
      · right; simp [strLeB, h]

theorem strLeB_trans {xs ys zs : List Char} (h₁ : strLeB xs ys = true)
    (h₂ : strLeB ys zs = true) : strLeB xs zs = true := by
  induction xs generalizing ys zs with
  | nil => rfl
  | cons a as ih =>
    cases ys with
    | nil => simp [strLeB] at h₁
    | cons b bs =>
      cases zs with
      | nil => simp [strLeB] at h₂
      | cons c cs =>
        simp only [strLeB, Bool.or_eq_true, Bool.and_eq_true, decide_eq_true_eq,
          beq_iff_eq] at h₁ h₂ ⊢
        rcases h₁ with h₁ | ⟨rfl, h₁⟩
        · rcases h₂ with h₂ | ⟨rfl, h₂⟩
          · exact Or.inl (lt_trans h₁ h₂)
          · exact Or.inl h₁
        · rcases h₂ with h₂ | ⟨rfl, h₂⟩
          · exact Or.inl h₂
          · exact Or.inr ⟨rfl, ih h₁ h₂⟩

instance : IsTotal Dict descRel :=
  ⟨fun d e => strLeB_total (sortKeyOf e).data (sortKeyOf d).data⟩

instance : IsTrans Dict descRel :=
  ⟨fun _ _ _ h₁ h₂ => strLeB_trans h₂ h₁⟩

theorem pySortDesc_sorted (l : List Dict) : (pySortDesc l).Sorted descRel :=
  List.sorted_insertionSort descRel l

theorem pySortDesc_perm (l : List Dict) : List.Perm (pySortDesc l) l :=
  List.perm_insertionSort descRel l

theorem pySortDesc_stable (l : List Dict) (k : String) :
    (pySortDesc l).filter (fun d => sortKeyOf d == k) =
      l.filter (fun d => sortKeyOf d == k) := by
  set p : Dict → Bool := fun d => sortKeyOf d == k with hp
  have hpair : (l.filter p).Pairwise descRel := by
    apply List.pairwise_of_forall_mem_list
    intro a ha b hb
    have ha' : sortKeyOf a = k := by
      have := List.of_mem_filter ha; simpa [hp] using this
    have hb' : sortKeyOf b = k := by
      have := List.of_mem_filter hb; simpa [hp] using this
    unfold descRel
    rw [ha', hb']
    exact strLeB_refl _
  have h1 : List.Sublist (l.filter p) (pySortDesc l) :=
    List.sublist_insertionSort hpair (List.filter_sublist l)
  have h2 : (l.filter p).filter p = l.filter p := by
    apply List.filter_eq_self.mpr
    intro a ha
    exact List.of_mem_filter ha
  have h3 : List.Sublist (l.filter p) ((pySortDesc l).filter p) := by
    have := List.Sublist.filter p h1
    rwa [h2] at this
  have h4 : ((pySortDesc l).filter p).length = (l.filter p).length :=
    ((pySortDesc_perm l).filter p).length_eq
  exact (h3.eq_of_length h4.symm).symm

theorem dictGet_repoFields_name (repo : Repo) (c i : Val) :
    dictGet (repoFields repo c i) "name" = some (Val.str repo.name) := rfl

theorem dictGet_repoFields_classification (repo : Repo) (c i : Val) :
    dictGet (repoFields repo c i) "classification" = some c := rfl

theorem dictGet_repoFields_image (repo : Repo) (c i : Val) :
    dictGet (repoFields repo c i) "image" = some i := rfl

theorem dictGet_gi_merge_one (emap : List (Val × Dict)) (repo : Repo)
    (k : String) :
    dictGet (gi_merge_one emap repo) k =
      let existing_proj := (emapGet emap (Val.str repo.name)).getD []
      if k ∈ standardFields then
        dictGet (repoFields repo (gi_classification existing_proj repo)
          (gi_image existing_proj repo)) k
      else dictGet existing_proj k := by
  set ep := (emapGet emap (Val.str repo.name)).getD [] with hep
  show dictGet (dictUpdate ep _) k = _
  by_cases hk : k ∈ standardFields
  · simp only [hk, if_true]
    fin_cases hk <;>
      simp [dictUpdate, repoFields, dictGet_dictSet, dictGet, List.find?]
  · simp only [hk, if_false]
    apply dictGet_dictUpdate_of_not_mem
    intro kv hkv
    simp only [repoFields, List.mem_cons, List.not_mem_nil, or_false] at hkv
    rcases hkv with h | h | h | h | h | h | h | h | h | h <;> subst h <;>
      simp only [standardFields, List.mem_cons, List.not_mem_nil, or_false] at hk <;>
      intro hc <;> apply hk <;> simp [hc.symm]

theorem dictGet_gi_merge_one_classification (emap : List (Val × Dict))
    (repo : Repo) :
    dictGet (gi_merge_one emap repo) "classification" =
      some (gi_classification ((emapGet emap (Val.str repo.name)).getD [])
        repo) := by
  rw [dictGet_gi_merge_one]
  simp [standardFields, repoFields, dictGet]

theorem dictGet_gi_merge_one_image (emap : List (Val × Dict)) (repo : Repo) :
    dictGet (gi_merge_one emap repo) "image" =
      some (gi_image ((emapGet emap (Val.str repo.name)).getD []) repo) := by
  rw [dictGet_gi_merge_one]
  simp [standardFields, repoFields, dictGet]

theorem dictGet_gi_merge_one_name (emap : List (Val × Dict)) (repo : Repo) :
    dictGet (gi_merge_one emap repo) "name" = some (Val.str repo.name) := by
  rw [dictGet_gi_merge_one]
  simp [standardFields, repoFields, dictGet]

theorem dictGet_gi_merge_one_stars (emap : List (Val × Dict)) (repo : Repo) :
    dictGet (gi_merge_one emap repo) "stars" =
      some (Val.int (Int.ofNat repo.stargazers_count)) := by
  rw [dictGet_gi_merge_one]
  simp [standardFields, repoFields, dictGet]

theorem dictGet_gi_merge_one_updated_at (emap : List (Val × Dict))
    (repo : Repo) :
    dictGet (gi_merge_one emap repo) "updated_at" =
      some (Val.str (repo.updated_at.getD "")) := by
  rw [dictGet_gi_merge_one]
  simp [standardFields, repoFields, dictGet]

theorem dictGet_uc_merge_one_classification (emap : List (Val × Dict))
    (repo : Repo) :
    dictGet (uc_merge_one emap repo) "classification" =
      some (uc_classification (emapGet emap (Val.str repo.name)) repo) := rfl

theorem dictGet_uc_merge_one_image (emap : List (Val × Dict)) (repo : Repo) :
    dictGet (uc_merge_one emap repo) "image" =
      some (Val.str (get_animal_for_project repo.name)) := rfl

theorem dictGet_uc_merge_one_name (emap : List (Val × Dict)) (repo : Repo) :
    dictGet (uc_merge_one emap repo) "name" = some (Val.str repo.name) := rfl

theorem gi_names_perm (fetched : List Repo) (prior : List Dict) :
    List.Perm
      ((generate_index_merge fetched prior).map (fun d => dictGet d "name"))
      (fetched.map (fun r => some (Val.str r.name))) := by
  unfold generate_index_merge
  have h := (pySortDesc_perm (fetched.map (gi_merge_one (existingMap prior)))).map
    (fun d => dictGet d "name")
  rw [List.map_map] at h
  have he : (fun d => dictGet d "name") ∘ gi_merge_one (existingMap prior) =
      fun r => some (Val.str r.name) := by
    funext r
    exact dictGet_gi_merge_one_name _ r
  rwa [he] at h

theorem uc_names_perm (fetched : List Repo) (prior : List Dict) :
    List.Perm
      ((update_config_merge fetched prior).map (fun d => dictGet d "name"))
      (fetched.map (fun r => some (Val.str r.name))) := by
  unfold update_config_merge
  have h := (pySortDesc_perm (fetched.map (uc_merge_one (existingMap prior)))).map
    (fun d => dictGet d "name")
  rw [List.map_map] at h
  have he : (fun d => dictGet d "name") ∘ uc_merge_one (existingMap prior) =
      fun r => some (Val.str r.name) := by
    funext r
    exact dictGet_uc_merge_one_name _ r
  rwa [he] at h

theorem nodup_some_str_names (fetched : List Repo)
    (h : (fetched.map Repo.name).Nodup) :
    (fetched.map (fun r => some (Val.str r.name))).Nodup := by
  have he : fetched.map (fun r => some (Val.str r.name)) =
      (fetched.map Repo.name).map (fun n => some (Val.str n)) := by
    rw [List.map_map]
    rfl
  rw [he]
  apply List.Nodup.map
  · intro a b hab
    simpa using hab
  · exact h

/-- A fetched repository record with only the fields that matter to the
merge varied; url and language are fixed neutral values. -/
def mkRepo (name : String) (description : Option String) (stars : Nat)
    (fork : Bool) (updated : Option String) (topics : List String) : Repo :=
  { name := name, description := description, html_url := "",
    language := none, stargazers_count := stars, forks_count := 0,
    topics := topics, fork := fork, updated_at := updated }

/-- C6: `get_auto_classification` is total and deterministic — every
constructible repository record yields exactly one of `training` /
`project`, never an error — the keyword match is case-insensitive and
substring-based (name, then description, then topics, first match
winning), and a fork with 0 stars and an empty description classifies
`training` while the same fork with 1 star classifies `project`. -/
theorem C6_classify_total_and_ordered :
    (∀ repo : Repo, get_auto_classification repo = "training" ∨
      get_auto_classification repo = "project") ∧
    get_auto_classification (mkRepo "My-Tutorial-App" none 0 false none []) =
      "training" ∧
    get_auto_classification
      (mkRepo "tutorialish-but-unrelated" none 0 false none []) = "training" ∧
    get_auto_classification (mkRepo "zzz" (some "A Demo Of things") 0 false
      none []) = "training" ∧
    get_auto_classification (mkRepo "zzz" none 0 false none ["workshop-kit"]) =
      "training" ∧
    get_auto_classification (mkRepo "zzz" none 0 true none []) = "training" ∧
    get_auto_classification (mkRepo "zzz" none 1 true none []) = "project" := by
  refine ⟨?_, by decide, by decide, by decide, by decide, by decide, by decide⟩
  intro repo
  dsimp only [get_auto_classification]
  split_ifs <;> first | exact Or.inl rfl | exact Or.inr rfl

/-- C8: `get_animal_for_project` is pure and deterministic — the same
name always yields the same element, the result is always a member of
the `animals` palette, and on the empty name the rolling hash stays `0`
so the first palette element is returned without error. -/
theorem C8_pick_pure_member_empty :
    (∀ n : String, get_animal_for_project n = get_animal_for_project n ∧
      get_animal_for_project n ∈ animals) ∧
    animalHash "".toList = 0 ∧
    get_animal_for_project "" = animals.getD 0 "" ∧
    animals.getD 0 "" = "🦁" := by
  refine ⟨fun n => ⟨rfl, ?_⟩, rfl, rfl, rfl⟩
  unfold get_animal_for_project
  have hlt : animalHash n.toList % animals.length < animals.length := by
    exact Nat.mod_lt _ (by decide)
  rw [List.getD_eq_getElem _ _ hlt]
  exact List.getElem_mem hlt

/-- C9: asset derivation is a pure function of the name: the slug
replaces every non-alphanumeric character with a hyphen and lower-cases
the result; the color is the 31-multiplier 32-bit rolling hash modulo
360 formatted as an HSL string with saturation 80% and lightness 50%
(the hue is always below 360); and the initials follow the three-case
rule, with `"my-cool-project"` yielding `"MC"` and `"x"` yielding
`"X"`. -/
theorem C9_asset_derivation :
    (∀ name : String, gi_slug name =
      pyLower (String.mk (name.data.map
        (fun c => if c.isAlphanum then c else '-')))) ∧
    (∀ name : String,
      gi_color_from_name name =
        "hsl(" ++ toString (colorHash name.data % 360) ++ " 80% 50%)" ∧
      colorHash name.data % 360 < 360) ∧
    gi_initials "my-cool-project" 2 = "MC" ∧
    gi_initials "x" 2 = "X" ∧
    gi_slug "My Cool_Project" = "my-cool-project" ∧
    gi_color_from_name "x" = "hsl(120 80% 50%)" := by
  refine ⟨fun _ => rfl, fun name => ⟨rfl, Nat.mod_lt _ (by decide)⟩,
    by decide, by decide, by decide, ?_⟩
  rfl

/-- C5: the merged output list is sorted by `updated_at` descending (the
key of every later record is lexicographically at most the key of every
earlier one, and the empty string is the lowest possible key), the sort
is stable (records with equal keys keep their relative fetch order), and
fetched `updated_at` values `["2024-01-01", "", "2023-06-01"]` in that
input order produce output order `["2024-01-01", "2023-06-01", ""]` in
both scripts. -/
theorem C5_sort_desc_stable :
    (∀ l : List Dict,
      (pySortDesc l).Pairwise
        (fun d e => strLeB (sortKeyOf e).data (sortKeyOf d).data = true)) ∧
    (∀ s : String, strLeB "".data s.data = true) ∧
    (∀ (l : List Dict) (k : String),
      (pySortDesc l).filter (fun d => sortKeyOf d == k) =
        l.filter (fun d => sortKeyOf d == k)) ∧
    ((generate_index_merge
        [mkRepo "aaa" none 0 false (some "2024-01-01") [],
         mkRepo "bbb" none 0 false none [],
         mkRepo "ccc" none 0 false (some "2023-06-01") []] []).map
      (fun d => dictGet d "updated_at") =
      [some (Val.str "2024-01-01"), some (Val.str "2023-06-01"),
       some (Val.str "")]) ∧
    ((update_config_merge
        [mkRepo "aaa" none 0 false (some "2024-01-01") [],
         mkRepo "bbb" none 0 false none [],
         mkRepo "ccc" none 0 false (some "2023-06-01") []] []).map
      (fun d => dictGet d "updated_at") =
      [some (Val.str "2024-01-01"), some (Val.str "2023-06-01"),
       some (Val.str "")]) := by
  refine ⟨fun l => pySortDesc_sorted l, fun s => rfl, pySortDesc_stable,
    rfl, rfl⟩

/-- C4 counterexample: the claim fails on wrong-typed fields and on
non-dict items.  A document `projects: [{stars: "many"}]` normalizes
with `stars` equal to the string `"many"` — `dict.get` only defaults on
absence, not on a wrong type, so the documented default `0` is not
applied — and a document `projects: ["hello"]` raises `AttributeError`
(`p.get` on a `str`). -/
theorem C4_counterexample :
    (parse_projects_yaml (.ok (Val.dict [("projects",
        Val.list [Val.dict [("stars", Val.str "many")]])]))).map
      (fun ds => ds.map (fun d => dictGet d "stars")) =
      .ok [some (Val.str "many")] ∧
    Val.str "many" ≠ Val.int 0 ∧
    parse_projects_yaml
      (.ok (Val.dict [("projects", Val.list [Val.str "hello"])])) =
      .error "AttributeError" := by
  refine ⟨rfl, ?_, rfl⟩
  intro h
  exact Val.noConfusion h

/-- C4 amended: `parse_projects_yaml` yields the empty list without
raising for unparsable input, an empty document, a non-mapping top
level, and a non-list `projects` value; over a list all of whose items
are dicts it normalizes every item field-by-field without raising or
dropping a record; absent fields fall back to the documented defaults
except `name`, which defaults to Python `None`; a present field is
passed through unchanged even when wrong-typed (`topics` additionally
coalesces falsy values to `[]`); and a non-dict item raises
`AttributeError`. -/
theorem C4_normalize_amended :
    parse_projects_yaml (.error ()) = .ok [] ∧
    parse_projects_yaml (.ok Val.null) = .ok [] ∧
    (∀ s, parse_projects_yaml (.ok (Val.str s)) = .ok []) ∧
    (∀ xs, parse_projects_yaml (.ok (Val.list xs)) = .ok []) ∧
    (∀ d s, dictGet d "projects" = some (Val.str s) →
      parse_projects_yaml (.ok (Val.dict d)) = .ok []) ∧
    (∀ ds : List Dict,
      normalizeItems (ds.map Val.dict) = .ok (ds.map normalizeFields)) ∧
    (∀ d, dictGet d "stars" = none →
      dictGet (normalizeFields d) "stars" = some (Val.int 0)) ∧
    (∀ d, dictGet d "name" = none →
      dictGet (normalizeFields d) "name" = some Val.null) ∧
    (∀ d v, dictGet d "stars" = some v →
      dictGet (normalizeFields d) "stars" = some v) ∧
    (∀ s, normalizeItem (Val.str s) = .error "AttributeError") := by
  refine ⟨rfl, rfl, ?_, ?_, ?_, ?_, ?_, ?_, ?_, fun s => rfl⟩
  · intro s
    by_cases h : s = ""
    · subst h; rfl
    · simp only [parse_projects_yaml, truthy]
      rw [if_pos (by simp [h])]
      rfl
  · intro xs
    cases xs with
    | nil => rfl
    | cons x xs => rfl
  · intro d s h
    cases d with
    | nil => simp [dictGet] at h
    | cons kv rest =>
      have ht : truthy (Val.dict (kv :: rest)) = true := by
        simp [truthy]
      simp [parse_projects_yaml, ht, h]
  · intro ds
    induction ds with
    | nil => rfl
    | cons d rest ih =>
      show ((Except.ok (normalizeFields d)).bind fun x =>
        (normalizeItems (rest.map Val.dict)).bind fun xs => Except.ok (x :: xs)) = _
      rw [ih]
      rfl
  · intro d h
    simp [normalizeFields, dictGet, h]
  · intro d h
    simp [normalizeFields, dictGet, h]
  · intro d v h
    simp [normalizeFields, dictGet, h]

/-- C4 witness: the amended theorem applied at concrete inputs — a
document whose `projects` value is the string `"oops"` normalizes to the
empty list, and a record `{name: "x"}` with no `stars` field gets the
default `0`. -/
theorem C4_witness :
    parse_projects_yaml (.ok (Val.dict [("projects", Val.str "oops")])) =
      .ok [] ∧
    dictGet (normalizeFields [("name", Val.str "x")]) "stars" =
      some (Val.int 0) ∧
    dictGet (normalizeFields [("stars", Val.bool true)]) "stars" =
      some (Val.bool true) :=
  ⟨C4_normalize_amended.2.2.2.2.1 [("projects", Val.str "oops")] "oops" rfl,
   C4_normalize_amended.2.2.2.2.2.2.1 [("name", Val.str "x")] rfl,
   C4_normalize_amended.2.2.2.2.2.2.2.2.1 [("stars", Val.bool true)]
     (Val.bool true) rfl⟩

theorem gi_classification_kept (prior : List Dict) (repo : Repo) (ep : Dict)
    (v : Val) (hmap : emapGet (existingMap prior) (Val.str repo.name) = some ep)
    (hcls : dictGet ep "classification" = some v) (htr : truthy v = true) :
    dictGet (gi_merge_one (existingMap prior) repo) "classification" =
      some v := by
  rw [dictGet_gi_merge_one_classification, hmap]
  simp [gi_classification, hcls, htr]

theorem uc_classification_verbatim (prior : List Dict) (repo : Repo)
    (ep : Dict)
    (hmap : emapGet (existingMap prior) (Val.str repo.name) = some ep)
    (hne : ep ≠ []) :
    dictGet (uc_merge_one (existingMap prior) repo) "classification" =
      some ((dictGet ep "classification").getD Val.null) := by
  rw [dictGet_uc_merge_one_classification, hmap]
  cases ep with
  | nil => exact absurd rfl hne
  | cons kv rest => simp [uc_classification]

/-- C1 counterexample: in `update_config.py` a matching prior record
whose classification is absent does NOT trigger
`get_auto_classification`.  With prior `{name: "x-tutorial"}` and a
fetched repo of the same name, the merged classification is Python
`None`, while `classify(fetched)` is `"training"` — so the merged value
differs from what the claim requires. -/
theorem C1_counterexample :
    dictGet ((update_config_merge
        [mkRepo "x-tutorial" none 0 false none []]
        [[("name", Val.str "x-tutorial")]]).headD []) "classification" =
      some Val.null ∧
    get_auto_classification (mkRepo "x-tutorial" none 0 false none []) =
      "training" ∧
    (some Val.null : Option Val) ≠ some (Val.str "training") := by
  refine ⟨rfl, rfl, ?_⟩
  intro h
  exact Val.noConfusion (Option.some.inj h)

/-- C1 amended: a matching prior record's non-empty (truthy)
classification is never overwritten, and `classify(fetched)` fills it in
for records with no prior match — in both scripts.  But only
`generate_index.py` recomputes an absent or falsy prior classification;
`update_config.py` copies the prior record's classification verbatim
(Python `None` when the key is absent) whenever the matching prior
record is a non-empty dict. -/
theorem C1_classification_merge :
    (∀ (prior : List Dict) (repo : Repo) (ep : Dict) (v : Val),
      emapGet (existingMap prior) (Val.str repo.name) = some ep →
      dictGet ep "classification" = some v → truthy v = true →
      dictGet (gi_merge_one (existingMap prior) repo) "classification" =
        some v) ∧
    (∀ (prior : List Dict) (repo : Repo) (ep : Dict) (v : Val),
      emapGet (existingMap prior) (Val.str repo.name) = some ep →
      dictGet ep "classification" = some v → truthy v = false →
      dictGet (gi_merge_one (existingMap prior) repo) "classification" =
        some (Val.str (get_auto_classification repo))) ∧
    (∀ (prior : List Dict) (repo : Repo) (ep : Dict),
      emapGet (existingMap prior) (Val.str repo.name) = some ep →
      dictGet ep "classification" = none →
      dictGet (gi_merge_one (existingMap prior) repo) "classification" =
        some (Val.str (get_auto_classification repo))) ∧
    (∀ (prior : List Dict) (repo : Repo),
      emapGet (existingMap prior) (Val.str repo.name) = none →
      dictGet (gi_merge_one (existingMap prior) repo) "classification" =
        some (Val.str (get_auto_classification repo))) ∧
    (∀ (prior : List Dict) (repo : Repo) (ep : Dict),
      emapGet (existingMap prior) (Val.str repo.name) = some ep → ep ≠ [] →
      dictGet (uc_merge_one (existingMap prior) repo) "classification" =
        some ((dictGet ep "classification").getD Val.null)) ∧
    (∀ (prior : List Dict) (repo : Repo),
      emapGet (existingMap prior) (Val.str repo.name) = none →
      dictGet (uc_merge_one (existingMap prior) repo) "classification" =
        some (Val.str (get_auto_classification repo))) := by
  refine ⟨gi_classification_kept, ?_, ?_, ?_, uc_classification_verbatim, ?_⟩
  · intro prior repo ep v hmap hcls htr
    rw [dictGet_gi_merge_one_classification, hmap]
    simp [gi_classification, hcls, htr]
  · intro prior repo ep hmap hcls
    rw [dictGet_gi_merge_one_classification, hmap]
    simp [gi_classification, hcls]
  · intro prior repo hmap
    rw [dictGet_gi_merge_one_classification, hmap]
    simp [gi_classification, dictGet]
  · intro prior repo hmap
    rw [dictGet_uc_merge_one_classification, hmap]
    rfl

/-- C1 witness: the amended theorem at the spec's own example — prior
`{name: "tutorial-x", classification: "project"}` and a same-named
fetched record whose name matches a training keyword keep classification
`project` in `generate_index.py`. -/
theorem C1_witness :
    dictGet (gi_merge_one
        (existingMap [[("name", Val.str "tutorial-x"),
          ("classification", Val.str "project")]])
        (mkRepo "tutorial-x" none 0 false none [])) "classification" =
      some (Val.str "project") :=
  C1_classification_merge.1
    [[("name", Val.str "tutorial-x"), ("classification", Val.str "project")]]
    (mkRepo "tutorial-x" none 0 false none [])
    [("name", Val.str "tutorial-x"), ("classification", Val.str "project")]
    (Val.str "project") rfl rfl rfl

/-- C2 counterexample: `update_config.py` always recomputes `image`.
With prior `{name: "x", image: "🦁"}` and a fetched repo of the same
name, the merged image is `get_animal_for_project("x") = "🐾"`, not the
sticky prior value `"🦁"`. -/
theorem C2_counterexample :
    dictGet ((update_config_merge [mkRepo "x" none 0 false none []]
        [[("name", Val.str "x"), ("image", Val.str "🦁")]]).headD [])
      "image" = some (Val.str "🐾") ∧
    get_animal_for_project "x" = "🐾" ∧
    (some (Val.str "🐾") : Option Val) ≠ some (Val.str "🦁") := by
  refine ⟨rfl, rfl, ?_⟩
  intro h
  have h2 := Val.str.inj (Option.some.inj h)
  exact absurd h2 (by decide)

/-- C2 amended: in `generate_index.py` the image is sticky exactly as
the claim states — a present truthy prior image is preserved, an absent
or falsy one is recomputed by `get_animal_for_project` — but
`update_config.py` recomputes `image` from the name on every run,
ignoring any prior value. -/
theorem C2_image_merge :
    (∀ (prior : List Dict) (repo : Repo) (ep : Dict) (v : Val),
      emapGet (existingMap prior) (Val.str repo.name) = some ep →
      dictGet ep "image" = some v → truthy v = true →
      dictGet (gi_merge_one (existingMap prior) repo) "image" = some v) ∧
    (∀ (prior : List Dict) (repo : Repo) (ep : Dict) (v : Val),
      emapGet (existingMap prior) (Val.str repo.name) = some ep →
      dictGet ep "image" = some v → truthy v = false →
      dictGet (gi_merge_one (existingMap prior) repo) "image" =
        some (Val.str (get_animal_for_project repo.name))) ∧
    (∀ (prior : List Dict) (repo : Repo) (ep : Dict),
      emapGet (existingMap prior) (Val.str repo.name) = some ep →
      dictGet ep "image" = none →
      dictGet (gi_merge_one (existingMap prior) repo) "image" =
        some (Val.str (get_animal_for_project repo.name))) ∧
    (∀ (prior : List Dict) (repo : Repo),
      emapGet (existingMap prior) (Val.str repo.name) = none →
      dictGet (gi_merge_one (existingMap prior) repo) "image" =
        some (Val.str (get_animal_for_project repo.name))) ∧
    (∀ (emap : List (Val × Dict)) (repo : Repo),
      dictGet (uc_merge_one emap repo) "image" =
        some (Val.str (get_animal_for_project repo.name))) := by
  refine ⟨?_, ?_, ?_, ?_, fun emap repo => rfl⟩
  · intro prior repo ep v hmap himg htr
    rw [dictGet_gi_merge_one_image, hmap]
    simp [gi_image, himg, htr]
  · intro prior repo ep v hmap himg htr
    rw [dictGet_gi_merge_one_image, hmap]
    simp [gi_image, himg, htr]
  · intro prior repo ep hmap himg
    rw [dictGet_gi_merge_one_image, hmap]
    simp [gi_image, himg]
  · intro prior repo hmap
    rw [dictGet_gi_merge_one_image, hmap]
    simp [gi_image, dictGet]

/-- C2 witness: the amended theorem at a concrete input — prior
`{name: "y", image: "🦁"}` keeps its image through the
`generate_index.py` merge. -/
theorem C2_witness :
    dictGet (gi_merge_one
        (existingMap [[("name", Val.str "y"), ("image", Val.str "🦁")]])
        (mkRepo "y" none 0 false none [])) "image" = some (Val.str "🦁") :=
  C2_image_merge.1 [[("name", Val.str "y"), ("image", Val.str "🦁")]]
    (mkRepo "y" none 0 false none [])
    [("name", Val.str "y"), ("image", Val.str "🦁")]
    (Val.str "🦁") rfl rfl rfl

/-- C3 counterexample: `update_config.py` builds a fresh dict, so an
extra custom field in the prior record is dropped, not preserved.  With
prior `{name: "x", note: "keep"}` and a same-named fetched repo, the
merged record has no `note` key. -/
theorem C3_counterexample :
    dictGet ((update_config_merge [mkRepo "x" none 0 false none []]
        [[("name", Val.str "x"), ("note", Val.str "keep")]]).headD [])
      "note" = none ∧
    dictGet [("name", Val.str "x"), ("note", Val.str "keep")] "note" =
      some (Val.str "keep") ∧
    (none : Option Val) ≠ some (Val.str "keep") := by
  refine ⟨rfl, rfl, ?_⟩
  intro h
  exact Option.noConfusion h

/-- C3 amended: the field-level overlay holds in `generate_index.py` —
the merged record starts from a copy of the matching prior record, every
key outside the ten standard metadata fields keeps its prior value, and
the standard fields carry the freshly fetched values — while
`update_config.py` performs a full replace: every key outside the ten
standard fields is absent from its merged record. -/
theorem C3_overlay_merge :
    (∀ (prior : List Dict) (repo : Repo) (k : String),
      k ∉ standardFields →
      dictGet (gi_merge_one (existingMap prior) repo) k =
        dictGet ((emapGet (existingMap prior) (Val.str repo.name)).getD [])
          k) ∧
    (∀ (emap : List (Val × Dict)) (repo : Repo),
      dictGet (gi_merge_one emap repo) "name" = some (Val.str repo.name) ∧
      dictGet (gi_merge_one emap repo) "stars" =
        some (Val.int (Int.ofNat repo.stargazers_count)) ∧
      dictGet (gi_merge_one emap repo) "updated_at" =
        some (Val.str (repo.updated_at.getD ""))) ∧
    (∀ (emap : List (Val × Dict)) (repo : Repo) (k : String),
      k ∉ standardFields → dictGet (uc_merge_one emap repo) k = none) := by
  refine ⟨?_, ?_, ?_⟩
  · intro prior repo k hk
    rw [dictGet_gi_merge_one]
    simp only [hk, if_false]
  · intro emap repo
    exact ⟨dictGet_gi_merge_one_name emap repo,
      dictGet_gi_merge_one_stars emap repo,
      dictGet_gi_merge_one_updated_at emap repo⟩
  · intro emap repo k hk
    simp only [standardFields, List.mem_cons, List.not_mem_nil, or_false,
      not_or] at hk
    obtain ⟨n1, n2, n3, n4, n5, n6, n7, n8, n9, n10⟩ := hk
    simp [uc_merge_one, repoFields, dictGet,
      beq_eq_false_iff_ne.mpr (Ne.symm n1), beq_eq_false_iff_ne.mpr (Ne.symm n2),
      beq_eq_false_iff_ne.mpr (Ne.symm n3), beq_eq_false_iff_ne.mpr (Ne.symm n4),
      beq_eq_false_iff_ne.mpr (Ne.symm n5), beq_eq_false_iff_ne.mpr (Ne.symm n6),
      beq_eq_false_iff_ne.mpr (Ne.symm n7), beq_eq_false_iff_ne.mpr (Ne.symm n8),
      beq_eq_false_iff_ne.mpr (Ne.symm n9), beq_eq_false_iff_ne.mpr (Ne.symm n10)]

/-- C3 witness: the amended theorem at a concrete input — a custom
`note` field of the prior record survives the `generate_index.py` merge
and is dropped by the `update_config.py` merge. -/
theorem C3_witness :
    dictGet (gi_merge_one
        (existingMap [[("name", Val.str "z"), ("note", Val.str "keep")]])
        (mkRepo "z" none 0 false none [])) "note" =
      dictGet ((emapGet
        (existingMap [[("name", Val.str "z"), ("note", Val.str "keep")]])
        (Val.str "z")).getD []) "note" ∧
    dictGet (uc_merge_one
        (existingMap [[("name", Val.str "z"), ("note", Val.str "keep")]])
        (mkRepo "z" none 0 false none [])) "note" = none :=
  ⟨C3_overlay_merge.1 [[("name", Val.str "z"), ("note", Val.str "keep")]]
      (mkRepo "z" none 0 false none []) "note" (by decide),
   C3_overlay_merge.2.2
      (existingMap [[("name", Val.str "z"), ("note", Val.str "keep")]])
      (mkRepo "z" none 0 false none []) "note" (by decide)⟩

/-- C7: for every fetched list with pairwise-distinct names (the data
model's input invariant) and every prior list, the merged output of both
scripts has pairwise-distinct `name` values, and every output record is
the merge of a currently fetched repository — prior-only records are
dropped. -/
theorem C7_unique_names_only_fetched :
    ∀ (fetched : List Repo) (prior : List Dict),
      (fetched.map Repo.name).Nodup →
      (((generate_index_merge fetched prior).map
          (fun d => dictGet d "name")).Nodup ∧
        ∀ d ∈ generate_index_merge fetched prior, ∃ r ∈ fetched,
          dictGet d "name" = some (Val.str r.name)) ∧
      (((update_config_merge fetched prior).map
          (fun d => dictGet d "name")).Nodup ∧
        ∀ d ∈ update_config_merge fetched prior, ∃ r ∈ fetched,
          dictGet d "name" = some (Val.str r.name)) := by
  intro fetched prior h
  have hnd := nodup_some_str_names fetched h
  refine ⟨⟨?_, ?_⟩, ⟨?_, ?_⟩⟩
  · exact ((gi_names_perm fetched prior).nodup_iff).mpr hnd
  · intro d hd
    have hd' : d ∈ (fetched.map (gi_merge_one (existingMap prior))) :=
      (pySortDesc_perm _).mem_iff.mp hd
    obtain ⟨r, hr, hrd⟩ := List.mem_map.mp hd'
    exact ⟨r, hr, hrd ▸ dictGet_gi_merge_one_name _ r⟩
  · exact ((uc_names_perm fetched prior).nodup_iff).mpr hnd
  · intro d hd
    have hd' : d ∈ (fetched.map (uc_merge_one (existingMap prior))) :=
      (pySortDesc_perm _).mem_iff.mp hd
    obtain ⟨r, hr, hrd⟩ := List.mem_map.mp hd'
    exact ⟨r, hr, hrd ▸ dictGet_uc_merge_one_name _ r⟩

/-- C7 witness: the theorem at a concrete input — two fetched repos with
distinct names and a prior list containing a record absent from the
fetch. -/
theorem C7_witness :
    (((generate_index_merge
        [mkRepo "aa" none 0 false none [], mkRepo "bb" none 0 false none []]
        [[("name", Val.str "old")]]).map
        (fun d => dictGet d "name")).Nodup ∧
      ∀ d ∈ generate_index_merge
          [mkRepo "aa" none 0 false none [], mkRepo "bb" none 0 false none []]
          [[("name", Val.str "old")]], ∃ r ∈
          [mkRepo "aa" none 0 false none [], mkRepo "bb" none 0 false none []],
          dictGet d "name" = some (Val.str r.name)) ∧
    (((update_config_merge
        [mkRepo "aa" none 0 false none [], mkRepo "bb" none 0 false none []]
        [[("name", Val.str "old")]]).map
        (fun d => dictGet d "name")).Nodup ∧
      ∀ d ∈ update_config_merge
          [mkRepo "aa" none 0 false none [], mkRepo "bb" none 0 false none []]
          [[("name", Val.str "old")]], ∃ r ∈
          [mkRepo "aa" none 0 false none [], mkRepo "bb" none 0 false none []],
          dictGet d "name" = some (Val.str r.name)) :=
  C7_unique_names_only_fetched
    [mkRepo "aa" none 0 false none [], mkRepo "bb" none 0 false none []]
    [[("name", Val.str "old")]] (by decide)

/-- C10: the merge never validates classification values — any non-empty
prior classification string, including strings outside the
`training`/`project` enumeration, is carried into the merged record
unchanged by both scripts. -/
theorem C10_no_enum_validation :
    ∀ (prior : List Dict) (repo : Repo) (ep : Dict) (s : String),
      emapGet (existingMap prior) (Val.str repo.name) = some ep →
      dictGet ep "classification" = some (Val.str s) → s ≠ "" →
      dictGet (gi_merge_one (existingMap prior) repo) "classification" =
        some (Val.str s) ∧
      dictGet (uc_merge_one (existingMap prior) repo) "classification" =
        some (Val.str s) := by
  intro prior repo ep s hmap hcls hs
  have htr : truthy (Val.str s) = true := by
    simp [truthy, hs]
  have hne : ep ≠ [] := by
    intro h
    rw [h] at hcls
    exact Option.noConfusion hcls
  constructor
  · exact gi_classification_kept prior repo ep (Val.str s) hmap hcls htr
  · have := uc_classification_verbatim prior repo ep hmap hne
    rw [this, hcls]
    rfl

/-- C10 witness: the theorem at a concrete input — the out-of-enum prior
classification `"banana"` survives both merges verbatim. -/
theorem C10_witness :
    dictGet (gi_merge_one
        (existingMap [[("name", Val.str "w"),
          ("classification", Val.str "banana")]])
        (mkRepo "w" none 0 false none [])) "classification" =
      some (Val.str "banana") ∧
    dictGet (uc_merge_one
        (existingMap [[("name", Val.str "w"),
          ("classification", Val.str "banana")]])
        (mkRepo "w" none 0 false none [])) "classification" =
      some (Val.str "banana") :=
  C10_no_enum_validation
    [[("name", Val.str "w"), ("classification", Val.str "banana")]]
    (mkRepo "w" none 0 false none [])
    [("name", Val.str "w"), ("classification", Val.str "banana")]
    "banana" rfl rfl (by decide)
